import Mathlib

/-!
Shallow embedding of the buffer-lifecycle and surface-composition core of
the Mir display server, translated from
`src/src/server/frontend_wayland/wl_surface.cpp` and (for the swap queue,
whose implementation file is not present) modelled from the specification.
-/

namespace Mir

/-! ## Geometry

Translated from Mir's geometry library (`mir/geometry`): points, sizes,
displacements and rectangles with half-open containment and clipping
intersection.  The geometry sources are not in the excerpt; the operations
below reproduce the standard Mir semantics that `wl_surface.cpp` relies on:
`contains` is inclusive of `top_left` and exclusive of `bottom_right`, and
`intersection_with` returns the default (zero) rectangle when the two
rectangles do not overlap. -/

structure Point where
  x : Int
  y : Int
  deriving DecidableEq, Repr

structure Displacement where
  dx : Int
  dy : Int
  deriving DecidableEq, Repr

structure Size where
  width : Int
  height : Int
  deriving DecidableEq, Repr

structure Rect where
  top_left : Point
  size : Size
  deriving DecidableEq, Repr

def Point.origin : Point := ⟨0, 0⟩

def Size.zero : Size := ⟨0, 0⟩

def Point.subDisp (p : Point) (d : Displacement) : Point :=
  ⟨p.x - d.dx, p.y - d.dy⟩

def Point.addDisp (p : Point) (d : Displacement) : Point :=
  ⟨p.x + d.dx, p.y + d.dy⟩

def Displacement.add (a b : Displacement) : Displacement :=
  ⟨a.dx + b.dx, a.dy + b.dy⟩

def Rect.right (r : Rect) : Int := r.top_left.x + r.size.width

def Rect.bottom (r : Rect) : Int := r.top_left.y + r.size.height

/-- Half-open containment: a zero-size rectangle contains no point. -/
def Rect.contains (r : Rect) (p : Point) : Bool :=
  r.top_left.x ≤ p.x && p.x < r.right &&
  r.top_left.y ≤ p.y && p.y < r.bottom

/-- Clipping intersection; disjoint rectangles intersect to the default
(zero at origin) rectangle, exactly as `geom::Rectangle::intersection_with`. -/
def Rect.intersection_with (r other : Rect) : Rect :=
  let max_left := max r.top_left.x other.top_left.x
  let min_right := min r.right other.right
  let max_top := max r.top_left.y other.top_left.y
  let min_bottom := min r.bottom other.bottom
  if max_left < min_right && max_top < min_bottom then
    ⟨⟨max_left, max_top⟩, ⟨min_right - max_left, min_bottom - max_top⟩⟩
  else
    ⟨Point.origin, Size.zero⟩

/-- Translate a rectangle, as `rect.top_left = rect.top_left + offset`. -/
def Rect.translate (r : Rect) (d : Displacement) : Rect :=
  ⟨r.top_left.addDisp d, r.size⟩

/-! ## Pixel formats

Translated from the anonymous-namespace `wl_format_to_mir_format` in
`wl_surface.cpp` and the `MIR_BYTES_PER_PIXEL` table of
`mir_toolkit/common.h` (unknown formats map to `invalid`, which has 0
bytes per pixel). -/

inductive WlShmFormat where
  | argb8888 | xrgb8888 | rgba4444 | rgba5551 | rgb565
  | rgb888 | bgr888 | xbgr8888 | abgr8888
  | unknown (code : Nat)
  deriving DecidableEq, Repr

inductive MirPixelFormat where
  | invalid
  | abgr_8888 | xbgr_8888 | argb_8888 | xrgb_8888
  | bgr_888 | rgb_888 | rgb_565 | rgba_5551 | rgba_4444
  deriving DecidableEq, Repr

def wl_format_to_mir_format : WlShmFormat → MirPixelFormat
  | .argb8888 => .argb_8888
  | .xrgb8888 => .xrgb_8888
  | .rgba4444 => .rgba_4444
  | .rgba5551 => .rgba_5551
  | .rgb565 => .rgb_565
  | .rgb888 => .rgb_888
  | .bgr888 => .bgr_888
  | .xbgr8888 => .xbgr_8888
  | .abgr8888 => .abgr_8888
  | .unknown _ => .invalid

def MIR_BYTES_PER_PIXEL : MirPixelFormat → Int
  | .invalid => 0
  | .abgr_8888 => 4
  | .xbgr_8888 => 4
  | .argb_8888 => 4
  | .xrgb_8888 => 4
  | .bgr_888 => 3
  | .rgb_888 => 3
  | .rgb_565 => 2
  | .rgba_5551 => 2
  | .rgba_4444 => 2

/-! ## Buffers

A committed `wl_buffer` resource is either a shared-memory buffer (the
`wl_shm_buffer_get(buffer)` branch of `commit`, carrying width, height,
stride and format) or a native/GPU buffer handled by
`allocator->buffer_from_resource`. -/

structure ShmBufferData where
  width : Int
  height : Int
  stride : Int
  format : WlShmFormat
  deriving DecidableEq, Repr

structure NativeBufferData where
  size : Size
  deriving DecidableEq, Repr

inductive BufferAttach where
  | shm (data : ShmBufferData)
  | native (data : NativeBufferData)
  deriving DecidableEq, Repr

/-- The size of the `graphics::Buffer` an attach produces on successful
import; the surface records it as its mapped size via
`stream->stream_size()` after `submit_buffer` (the stream sources are not
in the excerpt; per the spec the surface records the resulting Buffer's
size as its mapped size). -/
def BufferAttach.bufferSize : BufferAttach → Size
  | .shm d => ⟨d.width, d.height⟩
  | .native d => d.size

/-! ## Frame callbacks

`WlSurfaceState::Callback` holds a resource and a shared `destroyed` flag;
`send_frame_callbacks` only sends `done` to callbacks whose flag is not
set. -/

structure Callback where
  id : Nat
  destroyed : Bool
  deriving DecidableEq, Repr

/-! ## WlSurfaceState

`mf::WlSurfaceState`: every committable field is optional ("not set this
commit" versus "set"); `buffer` and `input_shape` are doubly optional, the
inner layer recording "attach null / clear region". -/

structure WlSurfaceState where
  buffer : Option (Option BufferAttach) := none
  scale : Option Int := none
  offset : Option Displacement := none
  input_shape : Option (Option (List Rect)) := none
  frame_callbacks : List Callback := []
  surface_data_invalidated : Bool := false
  deriving DecidableEq, Repr

/-- Translation of `mf::WlSurfaceState::update_from`: merge `source` into this state;
fields set in `source` overwrite, unset fields are kept, frame callbacks
are appended. -/
def WlSurfaceState.update_from (self source : WlSurfaceState) : WlSurfaceState :=
  { buffer := match source.buffer with
      | some b => some b
      | none => self.buffer
    scale := match source.scale with
      | some s => some s
      | none => self.scale
    offset := match source.offset with
      | some o => some o
      | none => self.offset
    input_shape := match source.input_shape with
      | some i => some i
      | none => self.input_shape
    frame_callbacks := self.frame_callbacks ++ source.frame_callbacks
    surface_data_invalidated :=
      self.surface_data_invalidated || source.surface_data_invalidated }

/-- Translation of `mf::WlSurfaceState::surface_data_needs_refresh`. -/
def WlSurfaceState.surface_data_needs_refresh (s : WlSurfaceState) : Bool :=
  s.offset.isSome || s.input_shape.isSome || s.surface_data_invalidated

/-! ## Roles -/

/-- A surface's role: either the built-in `NullWlSurfaceRole` or some
other `WlSurfaceRole` implementation, identified abstractly (the non-null
role implementations live outside the excerpt). -/
inductive Role where
  | nullRole
  | otherRole (id : Nat)
  deriving DecidableEq, Repr

inductive ProtocolError where
  | invalidStride
  | roleAlreadySet
  deriving DecidableEq, Repr

/-! ## WlSurface -/

/-- The fields of `mf::WlSurface` the commit state machine reads and
writes: the pending state, the committed offset, mapped buffer size,
committed input shape, the stream's scale (set through
`stream->set_scale`), the accumulated frame callbacks and the current
role.  Children are modelled separately by `SurfaceTree` for the
composition-tree operations; `commit` only notifies them
(`parent_has_committed`) without touching this surface's state. -/
structure WlSurface where
  pending : WlSurfaceState := {}
  offset_ : Displacement := ⟨0, 0⟩
  buffer_size_ : Option Size := none
  input_shape : Option (List Rect) := none
  scale : Int := 1
  frame_callbacks : List Callback := []
  role : Role := .nullRole
  deriving DecidableEq, Repr

/-- The compositor-visible committed attributes. -/
structure CurrentState where
  buffer_size : Option Size
  offset : Displacement
  input_shape : Option (List Rect)
  scale : Int
  deriving DecidableEq, Repr

def WlSurface.current (s : WlSurface) : CurrentState :=
  ⟨s.buffer_size_, s.offset_, s.input_shape, s.scale⟩

/-- Translation of `mf::WlSurface::send_frame_callbacks`: send `done` to every callback
whose resource is not destroyed, in list order, then clear the list.
Returns the new surface and the ids that received `done`. -/
def WlSurface.send_frame_callbacks (s : WlSurface) : WlSurface × List Nat :=
  ({ s with frame_callbacks := [] },
   (s.frame_callbacks.filter (fun c => !c.destroyed)).map Callback.id)

/-- Observable effects of one `commit(WlSurfaceState const&)` call:
the surface afterwards (for the error case, as mutated up to the point the
exception escaped), the callback ids sent `done` synchronously inside the
call, the buffers imported and submitted to the stream, whether
`send_frame_callbacks` was scheduled through the executor as the imported
buffer's on-consumed completion, whether `state.invalidate_surface_data()`
was called, and the protocol error posted, if any. -/
structure CommitEffects where
  surface : WlSurface
  frame_callbacks_sent : List Nat
  submitted : List BufferAttach
  on_consumed_registered : Bool
  state_invalidated : Bool
  error : Option ProtocolError
  deriving DecidableEq, Repr

/-- The head of `mf::WlSurface::commit(WlSurfaceState const&)`, lines
333-345: append the state's frame callbacks to the surface's running
list, then apply offset, input shape and scale if (and only if) each is
set in the state. -/
def WlSurface.applyPreBuffer (self : WlSurface) (state : WlSurfaceState) : WlSurface :=
  let self := { self with
    frame_callbacks := self.frame_callbacks ++ state.frame_callbacks }
  let self := match state.offset with
    | some o => { self with offset_ := o }
    | none => self
  let self := match state.input_shape with
    | some i => { self with input_shape := i }
    | none => self
  match state.scale with
  | some sc => { self with scale := sc }
  | none => self

/-- The stride validation of `commit`, lines 374-387: a shared-memory
buffer is rejected when `stride < width * MIR_BYTES_PER_PIXEL(format)`;
the native-buffer path has no stride check. -/
def strideInvalid : BufferAttach → Bool
  | .shm d =>
      decide (d.stride < d.width * MIR_BYTES_PER_PIXEL (wl_format_to_mir_format d.format))
  | .native _ => false

/-- Translation of `mf::WlSurface::commit(WlSurfaceState const& state)`, lines 331-440:
apply the non-buffer fields (`applyPreBuffer`), then handle the buffer:
unset → `send_frame_callbacks()` synchronously; attach null → unmap and
`send_frame_callbacks()` synchronously; attach a shared-memory buffer
with an invalid stride → post `InvalidStride` and throw (no buffer
produced, nothing further executes); otherwise import the buffer,
register the executor-spawning `send_frame_callbacks` closure as its
on-consumed completion, submit it to the stream, and record the stream
size as the mapped size, invalidating surface data when no explicit input
shape is set and the size changed. -/
def WlSurface.commitState (self : WlSurface) (state : WlSurfaceState) : CommitEffects :=
  let self := self.applyPreBuffer state
  match state.buffer with
  | some none =>
      let (self, sent) := { self with buffer_size_ := none }.send_frame_callbacks
      { surface := self, frame_callbacks_sent := sent, submitted := [],
        on_consumed_registered := false, state_invalidated := false, error := none }
  | some (some attach) =>
      if strideInvalid attach then
        { surface := self, frame_callbacks_sent := [], submitted := [],
          on_consumed_registered := false, state_invalidated := false,
          error := some .invalidStride }
      else
        let new_buffer_size := attach.bufferSize
        let invalidate :=
          self.input_shape.isNone && some new_buffer_size != self.buffer_size_
        { surface := { self with buffer_size_ := some new_buffer_size },
          frame_callbacks_sent := [], submitted := [attach],
          on_consumed_registered := true, state_invalidated := invalidate,
          error := none }
  | none =>
      let (self, sent) := self.send_frame_callbacks
      { surface := self, frame_callbacks_sent := sent, submitted := [],
        on_consumed_registered := false, state_invalidated := false, error := none }

/-- Translation of `mf::NullWlSurfaceRole::commit`: forwards straight into
`surface->commit(state)`. -/
def NullWlSurfaceRole.commit (surface : WlSurface) (state : WlSurfaceState) :
    CommitEffects :=
  surface.commitState state

/-! ## Pending-state mutators -/

/-- Translation of `mf::WlSurface::attach`: a non-zero offset only logs a warning and is
not applied; `pending.buffer = buffer.value_or(nullptr)`. -/
def WlSurface.attach (self : WlSurface) (buffer : Option BufferAttach)
    (_x _y : Int) : WlSurface :=
  { self with pending := { self.pending with buffer := some buffer } }

/-- Translation of `mf::WlSurface::frame`: push a new callback onto the pending list. -/
def WlSurface.frame (self : WlSurface) (cb : Callback) : WlSurface :=
  { self with pending :=
      { self.pending with
        frame_callbacks := self.pending.frame_callbacks ++ [cb] } }

/-- Translation of `mf::WlSurface::set_input_region`: a region resource sets the inner
optional to its rectangle vector; a null region sets the inner optional to
nullopt (update to the default region). -/
def WlSurface.set_input_region (self : WlSurface)
    (region : Option (List Rect)) : WlSurface :=
  match region with
  | some rects =>
      { self with pending := { self.pending with input_shape := some (some rects) } }
  | none =>
      { self with pending := { self.pending with input_shape := some none } }

/-- Translation of `mf::WlSurface::set_buffer_scale`. -/
def WlSurface.set_buffer_scale (self : WlSurface) (scale : Int) : WlSurface :=
  { self with pending := { self.pending with scale := some scale } }

/-- Translation of `mf::WlSurface::set_pending_offset`. -/
def WlSurface.set_pending_offset (self : WlSurface)
    (offset : Option Displacement) : WlSurface :=
  { self with pending := { self.pending with offset := offset } }

/-- Translation of `mf::WlSurface::set_role`: throws "Surface already has a role" when
the current role is not the null role, leaving the role unchanged;
otherwise installs the new role. -/
def WlSurface.set_role (self : WlSurface) (r : Nat) :
    WlSurface × Option ProtocolError :=
  if self.role ≠ .nullRole then
    (self, some .roleAlreadySet)
  else
    ({ self with role := .otherRole r }, none)

/-- Translation of `mf::WlSurface::clear_role`. -/
def WlSurface.clear_role (self : WlSurface) : WlSurface :=
  { self with role := .nullRole }

/-- The pending-state cleanup at the head of `mf::WlSurface::commit()`
(lines 444-451): drop a pending offset equal to the current offset and a
pending input shape equal to the current input shape. -/
def WlSurface.commitCleanup (self : WlSurface) : WlSurfaceState :=
  let pending := self.pending
  let pending := match pending.offset with
    | some o => if o = self.offset_ then { pending with offset := none } else pending
    | none => pending
  let pending := match pending.input_shape with
    | some i => if i = self.input_shape then { pending with input_shape := none }
                else pending
    | none => pending
  pending

/-- Translation of `mf::WlSurface::commit()`: clean the pending state, move it out,
reset `pending`, and hand the state to the current role.  Only the null
role's behaviour (`NullWlSurfaceRole::commit`, forwarding directly into
`commit(state)`) is in the excerpt; for any other role the dispatch is
left unmodelled (`none`). -/
def WlSurface.commit (self : WlSurface) : Option CommitEffects :=
  let state := self.commitCleanup
  let self := { self with pending := {} }
  match self.role with
  | .nullRole => some (NullWlSurfaceRole.commit self state)
  | .otherRole _ => none

/-! ## Composition tree

For the tree operations (`subsurface_at`, `populate_surface_data`) a
surface is its committed attributes plus its ordered list of children
(each child a `WlSubsurface` owning its own `WlSurface`, positioned by its
own committed offset). -/

/-- A `shell::StreamSpecification`: the buffer stream (identified
abstractly) at a displacement from the root. -/
structure StreamSpec where
  stream : Nat
  displacement : Displacement
  deriving DecidableEq, Repr

/-- The committed attributes of a surface that the composition-tree
operations read, plus the children list in insertion order. -/
inductive SurfaceTree where
  | node (offset_ : Displacement) (buffer_size_ : Option Size)
      (input_shape : Option (List Rect)) (stream : Nat)
      (children : List SurfaceTree)

def SurfaceTree.offset_ : SurfaceTree → Displacement
  | .node o _ _ _ _ => o

def SurfaceTree.buffer_size_ : SurfaceTree → Option Size
  | .node _ b _ _ _ => b

def SurfaceTree.inputShape : SurfaceTree → Option (List Rect)
  | .node _ _ i _ _ => i

def SurfaceTree.stream : SurfaceTree → Nat
  | .node _ _ _ s _ => s

def SurfaceTree.children : SurfaceTree → List SurfaceTree
  | .node _ _ _ _ c => c

mutual

/-- Translation of `mf::WlSurface::subsurface_at(point)`, lines 113-134: `none` if the
surface is not mapped; otherwise translate the point by the surface's
offset, try the children from the back of the list (so the first
subsurface found accepting the input is the topmost), and fall back to the
input-shape rectangles (defaulting to the whole surface rectangle), each
clipped to the surface rectangle before the containment test. -/
def SurfaceTree.subsurface_at (t : SurfaceTree) (point : Point) :
    Option SurfaceTree :=
  match t with
  | .node off bufsz ishape str children =>
    match bufsz with
    | none => none
    | some sz =>
      let point := point.subDisp off
      match SurfaceTree.subsurfaceAtChildrenRev children point with
      | some result => some result
      | none =>
        let surface_rect : Rect := ⟨Point.origin, sz⟩
        if (ishape.getD [surface_rect]).any
            (fun rect => (rect.intersection_with surface_rect).contains point) then
          some (.node off bufsz ishape str children)
        else
          none

/-- The `rbegin`/`rend` child loop of `subsurface_at`: the later-added
children are tried first, and the first hit wins. -/
def SurfaceTree.subsurfaceAtChildrenRev (children : List SurfaceTree)
    (point : Point) : Option SurfaceTree :=
  match children with
  | [] => none
  | child :: rest =>
    match SurfaceTree.subsurfaceAtChildrenRev rest point with
    | some result => some result
    | none => child.subsurface_at point

end

mutual

/-- Translation of `mf::WlSurface::populate_surface_data`, lines 184-219: append this
surface's stream at `parent_offset + offset_`; append its input
rectangles translated by that offset and clipped to the surface rectangle
(explicitly-empty shape appends one degenerate zero rectangle instead;
unset shape appends the whole surface rectangle); then recurse into the
children in order with the cumulative offset. -/
def SurfaceTree.populate_surface_data (t : SurfaceTree)
    (buffer_streams : List StreamSpec) (input_shape_accumulator : List Rect)
    (parent_offset : Displacement) : List StreamSpec × List Rect :=
  match t with
  | .node off bufsz ishape str children =>
    let offset := parent_offset.add off
    let buffer_streams := buffer_streams ++ [⟨str, offset⟩]
    let surface_rect : Rect := ⟨Point.origin.addDisp offset, bufsz.getD Size.zero⟩
    let input_shape_accumulator := input_shape_accumulator ++
      match ishape with
      | some rects =>
          rects.map (fun rect => (rect.translate offset).intersection_with surface_rect)
            ++ (if rects.isEmpty then [⟨Point.origin, Size.zero⟩] else [])
      | none => [surface_rect]
    SurfaceTree.populateChildren children buffer_streams input_shape_accumulator offset

/-- The child loop at the end of `populate_surface_data`. -/
def SurfaceTree.populateChildren (children : List SurfaceTree)
    (buffer_streams : List StreamSpec) (input_shape_accumulator : List Rect)
    (offset : Displacement) : List StreamSpec × List Rect :=
  match children with
  | [] => (buffer_streams, input_shape_accumulator)
  | child :: rest =>
    let (s, sh) :=
      child.populate_surface_data buffer_streams input_shape_accumulator offset
    SurfaceTree.populateChildren rest s sh offset

end

/-! ## Buffer swap queue

Modelled from the spec: the implementation of `FBSimpleSwapper`
(declared in `src/src/server/graphics/android/fb_simple_swapper.h`) is not
in the excerpt — only its class declaration with `compositor_acquire`,
`compositor_release`, a mutex/condition-variable pair and an internal
queue.  The model below follows the spec's description of the Buffer Swap
Queue: a bounded FIFO of at most K ready buffers, K fixed at construction
(K ≥ 1, constructing with zero buffers invalid); `compositor_acquire` is a
blocking pop (a caller finding the queue empty is suspended on the
condition variable — recorded in `acquire_waiters` — and does not
busy-wait); submission blocks its producer once K buffers are in flight
(recorded in `producer_waiters`); `compositor_release` returns a buffer to
circulation and wakes exactly one blocked waiter, a waiting producer
first (its pending buffer is then enqueued in the freed slot), otherwise a
waiting acquirer (which retries the pop). -/

structure SwapQueue where
  capacity : Nat
  queue : List Nat
  acquired : List Nat
  acquire_waiters : List Nat
  producer_waiters : List (Nat × Nat)
  deriving DecidableEq, Repr

namespace SwapQueue

/-- Modelled from the spec: construction fixes the capacity K to the
number of initial buffers; constructing with zero buffers is invalid. -/
def mkSwapQueue (buffers : List Nat) : Option SwapQueue :=
  if buffers.isEmpty then none
  else some { capacity := buffers.length, queue := buffers, acquired := [],
              acquire_waiters := [], producer_waiters := [] }

/-- Buffers in flight: queued plus acquired. -/
def inFlight (s : SwapQueue) : Nat := s.queue.length + s.acquired.length

/-- Modelled from the spec: `compositor_acquire()` by thread `t` — a
blocking pop.  An empty queue suspends `t` on the condition variable
(no buffer returned, no busy-waiting); otherwise the front buffer is
removed and returned with exclusive ownership. -/
def compositor_acquire (s : SwapQueue) (t : Nat) : SwapQueue × Option Nat :=
  match s.queue with
  | [] => ({ s with acquire_waiters := s.acquire_waiters ++ [t] }, none)
  | front :: rest =>
      ({ s with queue := rest, acquired := s.acquired ++ [front] }, some front)

/-- Modelled from the spec: submission of a ready buffer by producer
thread `t`.  Once K buffers are in flight the producer blocks waiting for
a free slot; otherwise the buffer is enqueued at the back.  Returns
whether the producer blocked. -/
def submit (s : SwapQueue) (t buffer : Nat) : SwapQueue × Bool :=
  if s.capacity ≤ inFlight s then
    ({ s with producer_waiters := s.producer_waiters ++ [(t, buffer)] }, true)
  else
    ({ s with queue := s.queue ++ [buffer] }, false)

/-- Modelled from the spec: `compositor_release(buffer)` returns the
buffer to circulation for reuse and wakes exactly one waiter blocked in
acquire or in a producer waiting for a free slot: a blocked producer's
pending buffer takes the freed slot; a woken acquirer retries the pop. -/
def compositor_release (s : SwapQueue) (buffer : Nat) : SwapQueue :=
  let s := { s with acquired := s.acquired.erase buffer }
  match s.producer_waiters with
  | (_, pending) :: rest =>
      { s with queue := s.queue ++ [pending], producer_waiters := rest }
  | [] =>
      match s.acquire_waiters with
      | t :: rest =>
          match s.queue with
          | front :: qrest =>
              { s with queue := qrest, acquired := s.acquired ++ [front],
                       acquire_waiters := rest }
          | [] => { s with acquire_waiters := rest ++ [t] }
      | [] => s

/-- Total number of blocked waiters. -/
def waiters (s : SwapQueue) : Nat :=
  s.acquire_waiters.length + s.producer_waiters.length

end SwapQueue

/-! ## The spec-side description of commit's merge -/

/-- The merge the specification ascribes to `commit()`: each committable
field (buffer, offset, input region, scale) updates the current state
only if explicitly set in the pending state; every field left unset
retains its previous current value; attaching null unmaps; a successful
attach records the new buffer's size as the mapped size. -/
def specCommitMerge (cur : CurrentState) (state : WlSurfaceState) : CurrentState :=
  { buffer_size := match state.buffer with
      | none => cur.buffer_size
      | some none => none
      | some (some attach) => some attach.bufferSize
    offset := state.offset.getD cur.offset
    input_shape := state.input_shape.getD cur.input_shape
    scale := state.scale.getD cur.scale }

/-! ## Helper lemmas -/

theorem applyPreBuffer_spec (self : WlSurface) (state : WlSurfaceState) :
    self.applyPreBuffer state =
      { self with
        offset_ := state.offset.getD self.offset_,
        input_shape := state.input_shape.getD self.input_shape,
        scale := state.scale.getD self.scale,
        frame_callbacks := self.frame_callbacks ++ state.frame_callbacks } := by
  unfold WlSurface.applyPreBuffer
  cases state.offset <;> cases state.input_shape <;> cases state.scale <;> rfl

theorem commitState_buffer_unset (self : WlSurface) (state : WlSurfaceState)
    (h : state.buffer = none) :
    self.commitState state =
      { surface := { self.applyPreBuffer state with frame_callbacks := [] },
        frame_callbacks_sent :=
          (((self.applyPreBuffer state).frame_callbacks.filter
            (fun c => !c.destroyed)).map Callback.id),
        submitted := [], on_consumed_registered := false,
        state_invalidated := false, error := none } := by
  simp only [WlSurface.commitState, WlSurface.send_frame_callbacks, h]

theorem commitState_buffer_null (self : WlSurface) (state : WlSurfaceState)
    (h : state.buffer = some none) :
    self.commitState state =
      { surface := { self.applyPreBuffer state with
                      buffer_size_ := none, frame_callbacks := [] },
        frame_callbacks_sent :=
          (((self.applyPreBuffer state).frame_callbacks.filter
            (fun c => !c.destroyed)).map Callback.id),
        submitted := [], on_consumed_registered := false,
        state_invalidated := false, error := none } := by
  simp only [WlSurface.commitState, WlSurface.send_frame_callbacks, h]

theorem commitState_attach_invalid (self : WlSurface) (state : WlSurfaceState)
    (a : BufferAttach) (h : state.buffer = some (some a))
    (hv : strideInvalid a = true) :
    self.commitState state =
      { surface := self.applyPreBuffer state,
        frame_callbacks_sent := [], submitted := [],
        on_consumed_registered := false, state_invalidated := false,
        error := some .invalidStride } := by
  simp only [WlSurface.commitState, h, hv, if_true]

theorem commitState_attach_valid (self : WlSurface) (state : WlSurfaceState)
    (a : BufferAttach) (h : state.buffer = some (some a))
    (hv : strideInvalid a = false) :
    self.commitState state =
      { surface := { self.applyPreBuffer state with
                      buffer_size_ := some a.bufferSize },
        frame_callbacks_sent := [], submitted := [a],
        on_consumed_registered := true,
        state_invalidated := (self.applyPreBuffer state).input_shape.isNone
          && some a.bufferSize != (self.applyPreBuffer state).buffer_size_,
        error := none } := by
  simp only [WlSurface.commitState, h, hv, Bool.false_eq_true, if_false]

theorem commitState_current_eq_merge (self : WlSurface) (state : WlSurfaceState)
    (h : (self.commitState state).error = none) :
    (self.commitState state).surface.current = specCommitMerge self.current state := by
  rcases hb : state.buffer with _ | ⟨_ | a⟩
  · rw [commitState_buffer_unset self state hb, applyPreBuffer_spec]
    simp [WlSurface.current, specCommitMerge, hb]
  · rw [commitState_buffer_null self state hb, applyPreBuffer_spec]
    simp [WlSurface.current, specCommitMerge, hb]
  · cases hv : strideInvalid a with
    | true =>
        rw [commitState_attach_invalid self state a hb hv] at h
        simp at h
    | false =>
        rw [commitState_attach_valid self state a hb hv, applyPreBuffer_spec]
        simp [WlSurface.current, specCommitMerge, hb]

/-! ## Claims -/

/-- C1: `commit()` merges the pending state into the current state
atomically: each committable field (buffer, offset, input region, scale)
updates the current state only if it was explicitly set in the pending
state, and every field left unset retains its previous current value, so
a commit setting only one field leaves the others unchanged. -/
theorem commit_merges_pending_atomically (self : WlSurface)
    (state : WlSurfaceState) (h : (self.commitState state).error = none) :
    (self.commitState state).surface.current = specCommitMerge self.current state :=
  commitState_current_eq_merge self state h

/-- Witness for C1: committing a pending state that sets only the offset
moves the offset and leaves buffer size, input shape and scale unchanged. -/
theorem commit_merges_pending_atomically_witness :
    (WlSurface.commitState
        { offset_ := ⟨1, 2⟩, buffer_size_ := some ⟨10, 10⟩, scale := 1 }
        { offset := some ⟨3, 4⟩ }).surface.current
      = ⟨some ⟨10, 10⟩, ⟨3, 4⟩, none, 1⟩ := by
  have h := commit_merges_pending_atomically
    { offset_ := ⟨1, 2⟩, buffer_size_ := some ⟨10, 10⟩, scale := 1 }
    { offset := some ⟨3, 4⟩ } (by decide)
  rw [h]
  decide

/-- C2 counterexample: a commit whose pending state carries both a new
offset and a shared-memory buffer of width 4, format argb8888 (4 bytes
per pixel) and stride 8 is rejected with `InvalidStride`, yet the
current state observed after the failed commit is not unchanged: the
offset was already applied when the error was raised. -/
theorem commit_invalid_stride_not_atomic :
    let self : WlSurface := { buffer_size_ := some ⟨10, 10⟩ }
    let state : WlSurfaceState :=
      { offset := some ⟨5, 5⟩, buffer := some (some (.shm ⟨4, 4, 8, .argb8888⟩)) }
    (self.commitState state).error = some .invalidStride ∧
    (self.commitState state).surface.current ≠ self.current := by
  decide

/-- C2 (amended): a commit of a shared-memory buffer whose stride is less
than width × bytes-per-pixel for the negotiated format posts an
`InvalidStride` protocol error and aborts: no buffer is produced or
submitted, nothing is scheduled on the executor, no frame callback is
sent, and the mapped buffer size is unchanged — but the fields commit
applies before buffer handling (offset, input region, scale) have already
taken any values set in the same pending state when the error escapes. -/
theorem commit_invalid_stride_rejects_import (self : WlSurface)
    (state : WlSurfaceState) (d : ShmBufferData)
    (hb : state.buffer = some (some (.shm d)))
    (hs : d.stride < d.width * MIR_BYTES_PER_PIXEL (wl_format_to_mir_format d.format)) :
    (self.commitState state).error = some .invalidStride ∧
    (self.commitState state).submitted = [] ∧
    (self.commitState state).on_consumed_registered = false ∧
    (self.commitState state).frame_callbacks_sent = [] ∧
    (self.commitState state).surface.buffer_size_ = self.buffer_size_ ∧
    (self.commitState state).surface.offset_ = state.offset.getD self.offset_ ∧
    (self.commitState state).surface.input_shape
      = state.input_shape.getD self.input_shape ∧
    (self.commitState state).surface.scale = state.scale.getD self.scale := by
  have hv : strideInvalid (.shm d) = true := by
    simp only [strideInvalid, decide_eq_true_eq]
    exact hs
  rw [commitState_attach_invalid self state _ hb hv, applyPreBuffer_spec]
  simp

/-- Witness for C2 (amended): the spec's concrete rejection scenario —
width 4, argb8888, stride 8 (8 < 16) is rejected with `InvalidStride`,
produces no buffer, and leaves the mapped size unchanged. -/
theorem commit_invalid_stride_rejects_import_witness :
    ((WlSurface.commitState { buffer_size_ := some ⟨10, 10⟩ }
        { buffer := some (some (.shm ⟨4, 4, 8, .argb8888⟩)) }).error
        = some .invalidStride) ∧
    ((WlSurface.commitState { buffer_size_ := some ⟨10, 10⟩ }
        { buffer := some (some (.shm ⟨4, 4, 8, .argb8888⟩)) }).submitted = []) ∧
    ((WlSurface.commitState { buffer_size_ := some ⟨10, 10⟩ }
        { buffer := some (some (.shm ⟨4, 4, 8, .argb8888⟩)) }).surface.buffer_size_
        = some ⟨10, 10⟩) := by
  have h := commit_invalid_stride_rejects_import
    { buffer_size_ := some ⟨10, 10⟩ }
    { buffer := some (some (.shm ⟨4, 4, 8, .argb8888⟩)) }
    ⟨4, 4, 8, .argb8888⟩ rfl (by decide)
  exact ⟨h.1, h.2.1, h.2.2.2.2.1⟩

/-- C3 counterexample: on a mapped surface (buffer size set), a commit
whose pending state sets no buffer at all — which does not unmap the
surface — delivers the accumulated frame callback synchronously inside
`commit()`. -/
theorem commit_mapped_sends_callbacks_synchronously :
    let self : WlSurface :=
      { buffer_size_ := some ⟨10, 10⟩, frame_callbacks := [⟨7, false⟩] }
    let state : WlSurfaceState := {}
    (self.commitState state).frame_callbacks_sent = [7] ∧
    self.buffer_size_ ≠ none ∧
    (self.commitState state).surface.buffer_size_ ≠ none := by
  decide

/-- C3 (amended): frame-callback delivery runs synchronously inside
`commit()` exactly when the commit carries no buffer — either attaching
null (unmapping) or leaving the buffer unset entirely, mapped or not;
when a buffer is attached and imported, nothing is delivered inside
`commit()` and `send_frame_callbacks` is only scheduled through the
executor as the import's on-consumed completion, so done never precedes
content availability for newly attached content. -/
theorem frame_callback_delivery_paths (self : WlSurface) (state : WlSurfaceState) :
    (∀ a, state.buffer = some (some a) → strideInvalid a = false →
        (self.commitState state).frame_callbacks_sent = [] ∧
        (self.commitState state).on_consumed_registered = true) ∧
    (state.buffer = some none →
        (self.commitState state).frame_callbacks_sent =
          ((self.frame_callbacks ++ state.frame_callbacks).filter
            (fun c => !c.destroyed)).map Callback.id ∧
        (self.commitState state).on_consumed_registered = false) ∧
    (state.buffer = none →
        (self.commitState state).frame_callbacks_sent =
          ((self.frame_callbacks ++ state.frame_callbacks).filter
            (fun c => !c.destroyed)).map Callback.id ∧
        (self.commitState state).on_consumed_registered = false) := by
  refine ⟨fun a hb hv => ?_, fun hb => ?_, fun hb => ?_⟩
  · rw [commitState_attach_valid self state a hb hv]
    exact ⟨rfl, rfl⟩
  · rw [commitState_buffer_null self state hb, applyPreBuffer_spec]
    exact ⟨rfl, rfl⟩
  · rw [commitState_buffer_unset self state hb, applyPreBuffer_spec]
    exact ⟨rfl, rfl⟩

/-- Witness for C3 (amended): a valid native-buffer attach sends nothing
synchronously and registers the executor completion; an unset buffer
delivers the live callback synchronously. -/
theorem frame_callback_delivery_paths_witness :
    ((WlSurface.commitState { frame_callbacks := [⟨7, false⟩] }
        { buffer := some (some (.native ⟨⟨4, 4⟩⟩)) }).frame_callbacks_sent = [] ∧
     (WlSurface.commitState { frame_callbacks := [⟨7, false⟩] }
        { buffer := some (some (.native ⟨⟨4, 4⟩⟩)) }).on_consumed_registered = true) ∧
    ((WlSurface.commitState { frame_callbacks := [⟨7, false⟩] }
        {}).frame_callbacks_sent = [7] ∧
     (WlSurface.commitState { frame_callbacks := [⟨7, false⟩] }
        {}).on_consumed_registered = false) := by
  refine ⟨(frame_callback_delivery_paths { frame_callbacks := [⟨7, false⟩] }
      { buffer := some (some (.native ⟨⟨4, 4⟩⟩)) }).1 _ rfl rfl, ?_⟩
  have h := (frame_callback_delivery_paths
      { frame_callbacks := [⟨7, false⟩] } {}).2.2 rfl
  exact ⟨by rw [h.1]; decide, h.2⟩

/-- C4: frame callbacks registered across successive commits that attach
buffers accumulate in one running FIFO list — each commit appends its
callbacks, never replacing earlier ones, and delivers nothing
synchronously — and when delivery happens, every still-live callback
receives done in registration order, after which the list is cleared. -/
theorem frame_callbacks_accumulate_fifo (self : WlSurface)
    (c1 c2 c3 : Callback) (b1 b2 b3 : BufferAttach)
    (hcb : self.frame_callbacks = [])
    (hv1 : strideInvalid b1 = false) (hv2 : strideInvalid b2 = false)
    (hv3 : strideInvalid b3 = false)
    (h1 : c1.destroyed = false) (h2 : c2.destroyed = false)
    (h3 : c3.destroyed = false) :
    let e1 := self.commitState { buffer := some (some b1), frame_callbacks := [c1] }
    let e2 := e1.surface.commitState
      { buffer := some (some b2), frame_callbacks := [c2] }
    let e3 := e2.surface.commitState
      { buffer := some (some b3), frame_callbacks := [c3] }
    e1.surface.frame_callbacks = [c1] ∧
    e2.surface.frame_callbacks = [c1, c2] ∧
    e3.surface.frame_callbacks = [c1, c2, c3] ∧
    e1.frame_callbacks_sent = [] ∧
    e2.frame_callbacks_sent = [] ∧
    e3.frame_callbacks_sent = [] ∧
    e3.surface.send_frame_callbacks.2 = [c1.id, c2.id, c3.id] ∧
    e3.surface.send_frame_callbacks.1.frame_callbacks = [] := by
  dsimp only
  rw [commitState_attach_valid _ _ b1 rfl hv1, applyPreBuffer_spec]
  rw [commitState_attach_valid _ _ b2 rfl hv2, applyPreBuffer_spec]
  rw [commitState_attach_valid _ _ b3 rfl hv3, applyPreBuffer_spec]
  simp [hcb, h1, h2, h3, WlSurface.send_frame_callbacks]

/-- Witness for C4: three callbacks registered across three
native-buffer commits fire done(1), done(2), done(3) in order, and the
list is then empty. -/
theorem frame_callbacks_accumulate_fifo_witness :
    let e1 := WlSurface.commitState {}
      { buffer := some (some (.native ⟨⟨4, 4⟩⟩)), frame_callbacks := [⟨1, false⟩] }
    let e2 := e1.surface.commitState
      { buffer := some (some (.native ⟨⟨4, 4⟩⟩)), frame_callbacks := [⟨2, false⟩] }
    let e3 := e2.surface.commitState
      { buffer := some (some (.native ⟨⟨4, 4⟩⟩)), frame_callbacks := [⟨3, false⟩] }
    e3.surface.frame_callbacks = [⟨1, false⟩, ⟨2, false⟩, ⟨3, false⟩] ∧
    e3.surface.send_frame_callbacks.2 = [1, 2, 3] ∧
    e3.surface.send_frame_callbacks.1.frame_callbacks = [] := by
  have h := frame_callbacks_accumulate_fifo {} ⟨1, false⟩ ⟨2, false⟩ ⟨3, false⟩
    (.native ⟨⟨4, 4⟩⟩) (.native ⟨⟨4, 4⟩⟩) (.native ⟨⟨4, 4⟩⟩)
    rfl rfl rfl rfl rfl rfl rfl
  exact ⟨h.2.2.1, h.2.2.2.2.2.2.1, h.2.2.2.2.2.2.2⟩

/-- C5: in region accumulation, a surface whose input region was
explicitly set to an empty list contributes exactly one degenerate
zero-size rectangle to the accumulated input shape, while a surface whose
input region was never set contributes exactly one full-surface
rectangle, so "accept no input" is distinguishable from "no region
set". -/
theorem populate_explicit_empty_vs_unset (off : Displacement)
    (bufsz : Option Size) (str : Nat) (streams : List StreamSpec)
    (shapes : List Rect) (parent_offset : Displacement) :
    (SurfaceTree.node off bufsz (some []) str []).populate_surface_data
        streams shapes parent_offset
      = (streams ++ [⟨str, parent_offset.add off⟩],
         shapes ++ [⟨Point.origin, Size.zero⟩]) ∧
    (SurfaceTree.node off bufsz none str []).populate_surface_data
        streams shapes parent_offset
      = (streams ++ [⟨str, parent_offset.add off⟩],
         shapes ++ [⟨Point.origin.addDisp (parent_offset.add off),
                     bufsz.getD Size.zero⟩]) := by
  constructor <;> rfl

/-! ## Hit-testing helper lemmas -/

theorem subsurfaceAtChildrenRev_none (children : List SurfaceTree) (p : Point)
    (h : ∀ c ∈ children, c.subsurface_at p = none) :
    SurfaceTree.subsurfaceAtChildrenRev children p = none := by
  induction children with
  | nil => rfl
  | cons c rest ih =>
      have hr := ih (fun c' hc' => h c' (List.mem_cons_of_mem _ hc'))
      have hc := h c (List.mem_cons_self _ _)
      simp only [SurfaceTree.subsurfaceAtChildrenRev, hr, hc]

theorem subsurfaceAtChildrenRev_last_hit (children : List SurfaceTree)
    (p : Point) (i : Nat) (hi : i < children.length) (result : SurfaceTree)
    (hhit : children[i].subsurface_at p = some result)
    (hmiss : ∀ j, i < j → (hj : j < children.length) →
        children[j].subsurface_at p = none) :
    SurfaceTree.subsurfaceAtChildrenRev children p = some result := by
  induction children generalizing i with
  | nil => exact absurd hi (by simp)
  | cons c rest ih =>
      cases i with
      | zero =>
          have hr : SurfaceTree.subsurfaceAtChildrenRev rest p = none := by
            apply subsurfaceAtChildrenRev_none
            intro c' hc'
            obtain ⟨n, hn, hel⟩ := List.mem_iff_getElem.mp hc'
            have := hmiss (n + 1) (Nat.succ_pos n) (by simpa using Nat.succ_lt_succ hn)
            simpa [hel] using this
          simp only [SurfaceTree.subsurfaceAtChildrenRev, hr]
          simpa using hhit
      | succ k =>
          have hr : SurfaceTree.subsurfaceAtChildrenRev rest p = some result := by
            apply ih k (by simpa using Nat.lt_of_succ_lt_succ hi)
            · simpa using hhit
            · intro j hj hjl
              have := hmiss (j + 1) (Nat.succ_lt_succ hj) (by simpa using Nat.succ_lt_succ hjl)
              simpa using this
          simp only [SurfaceTree.subsurfaceAtChildrenRev, hr]

/-- C6: hit-testing: `subsurface_at` returns nothing on an unmapped
surface; on a mapped surface it translates the point into local
coordinates by subtracting the surface's offset, tests children in
reverse insertion order so the most-recently-added overlapping child
wins, and only if every child misses tests the local point against the
input-region rectangles (the explicit ones, or by default the whole
mapped rectangle), returning the surface itself on a hit and nothing
otherwise. -/
theorem subsurface_at_hit_testing :
    (∀ (t : SurfaceTree) (p : Point),
        t.buffer_size_ = none → t.subsurface_at p = none) ∧
    (∀ (off : Displacement) (sz : Size) (ishape : Option (List Rect))
        (str : Nat) (children : List SurfaceTree) (p : Point) (i : Nat)
        (hi : i < children.length) (result : SurfaceTree),
        children[i].subsurface_at (p.subDisp off) = some result →
        (∀ j, i < j → (hj : j < children.length) →
            children[j].subsurface_at (p.subDisp off) = none) →
        (SurfaceTree.node off (some sz) ishape str children).subsurface_at p
          = some result) ∧
    (∀ (off : Displacement) (sz : Size) (ishape : Option (List Rect))
        (str : Nat) (children : List SurfaceTree) (p : Point),
        (∀ j, (hj : j < children.length) →
            children[j].subsurface_at (p.subDisp off) = none) →
        (SurfaceTree.node off (some sz) ishape str children).subsurface_at p
          = (if (ishape.getD [⟨Point.origin, sz⟩]).any
                 (fun rect => (rect.intersection_with ⟨Point.origin, sz⟩).contains
                   (p.subDisp off))
             then some (SurfaceTree.node off (some sz) ishape str children)
             else none)) := by
  refine ⟨fun t p h => ?_, fun off sz ishape str children p i hi result hhit hmiss => ?_,
          fun off sz ishape str children p hmiss => ?_⟩
  · rcases t with ⟨o, b, i, s, c⟩
    cases h
    rfl
  · have hrev := subsurfaceAtChildrenRev_last_hit children (p.subDisp off) i hi
      result hhit hmiss
    simp only [SurfaceTree.subsurface_at, hrev]
  · have hrev : SurfaceTree.subsurfaceAtChildrenRev children (p.subDisp off) = none := by
      apply subsurfaceAtChildrenRev_none
      intro c hc
      obtain ⟨n, hn, hel⟩ := List.mem_iff_getElem.mp hc
      rw [← hel]
      exact hmiss n hn
    simp only [SurfaceTree.subsurface_at, hrev]

/-- Witness for C6: the spec's scenario — a surface with input region
covering (0,0)-(100,100) and a later-added child covering (10,10)-(50,50)
returns the child at (20,20); an unmapped surface returns nothing. -/
theorem subsurface_at_hit_testing_witness :
    ((SurfaceTree.node ⟨0, 0⟩ (some ⟨100, 100⟩) (some [⟨⟨0, 0⟩, ⟨100, 100⟩⟩]) 0
        [SurfaceTree.node ⟨10, 10⟩ (some ⟨40, 40⟩) none 1 []]).subsurface_at ⟨20, 20⟩
      = some (SurfaceTree.node ⟨10, 10⟩ (some ⟨40, 40⟩) none 1 [])) ∧
    ((SurfaceTree.node ⟨0, 0⟩ none (some [⟨⟨0, 0⟩, ⟨100, 100⟩⟩]) 0
        []).subsurface_at ⟨20, 20⟩ = none) := by
  constructor
  · exact subsurface_at_hit_testing.2.1 ⟨0, 0⟩ ⟨100, 100⟩
      (some [⟨⟨0, 0⟩, ⟨100, 100⟩⟩]) 0
      [SurfaceTree.node ⟨10, 10⟩ (some ⟨40, 40⟩) none 1 []] ⟨20, 20⟩ 0
      (by simp) (SurfaceTree.node ⟨10, 10⟩ (some ⟨40, 40⟩) none 1 [])
      rfl (fun j hj hjl => by simp at hjl; omega)
  · exact subsurface_at_hit_testing.1
      (SurfaceTree.node ⟨0, 0⟩ none (some [⟨⟨0, 0⟩, ⟨100, 100⟩⟩]) 0 []) ⟨20, 20⟩ rfl

/-- Clipping an input rectangle to the surface rectangle means a point it
contains is inside the surface rectangle. -/
theorem contains_of_contains_intersection (r s : Rect) (p : Point)
    (h : (r.intersection_with s).contains p = true) : s.contains p = true := by
  simp only [Rect.intersection_with] at h
  split at h <;>
    simp only [Rect.contains, Rect.right, Rect.bottom, Point.origin, Size.zero,
      Bool.and_eq_true, decide_eq_true_eq] at h ⊢ <;>
    omega

/-- C10: each input-region rectangle is intersected with the surface's
own mapped rectangle before the containment test, so a point outside the
surface's mapped rectangle is never hit through the input region, however
large the explicitly-set rectangles are — explicit input regions never
extend a surface's hit-test area beyond its buffer. -/
theorem input_region_never_extends_beyond_buffer (off : Displacement)
    (sz : Size) (ishape : Option (List Rect)) (str : Nat)
    (children : List SurfaceTree) (p : Point)
    (hchildren : ∀ j, (hj : j < children.length) →
        children[j].subsurface_at (p.subDisp off) = none)
    (houtside : Rect.contains ⟨Point.origin, sz⟩ (p.subDisp off) = false) :
    (SurfaceTree.node off (some sz) ishape str children).subsurface_at p = none := by
  have hrev : SurfaceTree.subsurfaceAtChildrenRev children (p.subDisp off) = none := by
    apply subsurfaceAtChildrenRev_none
    intro c hc
    obtain ⟨n, hn, hel⟩ := List.mem_iff_getElem.mp hc
    rw [← hel]
    exact hchildren n hn
  simp only [SurfaceTree.subsurface_at, hrev]
  rw [if_neg]
  simp only [List.any_eq_true, not_exists, not_and]
  intro rect hmem hcontains
  have := contains_of_contains_intersection rect ⟨Point.origin, sz⟩
    (p.subDisp off) hcontains
  rw [houtside] at this
  exact Bool.false_ne_true this

/-- Witness for C10: a surface mapped at 100×100 with an explicit input
rectangle reaching 200×200 does not hit-test at (150,150). -/
theorem input_region_never_extends_beyond_buffer_witness :
    (SurfaceTree.node ⟨0, 0⟩ (some ⟨100, 100⟩)
        (some [⟨⟨0, 0⟩, ⟨200, 200⟩⟩]) 0 []).subsurface_at ⟨150, 150⟩ = none := by
  exact input_region_never_extends_beyond_buffer ⟨0, 0⟩ ⟨100, 100⟩
    (some [⟨⟨0, 0⟩, ⟨200, 200⟩⟩]) 0 [] ⟨150, 150⟩
    (fun j hj => by simp at hj) (by decide)

/-- C7: idempotence of `commit()`: committing a pending state whose set
fields all equal the corresponding current values (an offset equal to the
current offset, an input shape equal to the current input shape, a scale
equal to the current scale, and a buffer that is either unset, a null
attach while already unmapped, or an attach whose buffer size equals the
current mapped size) leaves the observable current state (buffer size,
offset, input region, scale) unchanged. -/
theorem commit_idempotent (self : WlSurface)
    (hrole : self.role = .nullRole)
    (hoff : self.pending.offset = none ∨ self.pending.offset = some self.offset_)
    (hish : self.pending.input_shape = none ∨
        self.pending.input_shape = some self.input_shape)
    (hsc : self.pending.scale = none ∨ self.pending.scale = some self.scale)
    (hbuf : self.pending.buffer = none ∨
        (self.pending.buffer = some none ∧ self.buffer_size_ = none) ∨
        (∃ a, self.pending.buffer = some (some a) ∧
            some a.bufferSize = self.buffer_size_)) :
    self.commit.map (fun eff => eff.surface.current) = some self.current := by
  obtain ⟨pending, offv, bufszv, ishv, scv, fcbv, rolev⟩ := self
  obtain ⟨pb, psc, poff, pish, pfcb, pinv⟩ := pending
  dsimp only at hrole hoff hish hsc hbuf
  subst hrole
  have hclean : WlSurface.commitCleanup
        ⟨⟨pb, psc, poff, pish, pfcb, pinv⟩, offv, bufszv, ishv, scv, fcbv, .nullRole⟩
      = ⟨pb, psc, none, none, pfcb, pinv⟩ := by
    rcases hoff with h | h <;> subst h <;> rcases hish with h | h <;> subst h <;>
      simp [WlSurface.commitCleanup]
  simp only [WlSurface.commit, hclean, NullWlSurfaceRole.commit, Option.map]
  rcases hbuf with h | ⟨h, h'⟩ | ⟨a, h, h'⟩
  · subst h
    rw [commitState_buffer_unset _ _ rfl, applyPreBuffer_spec]
    rcases hsc with h | h <;> subst h <;> simp [WlSurface.current]
  · subst h
    subst h'
    rw [commitState_buffer_null _ _ rfl, applyPreBuffer_spec]
    rcases hsc with h | h <;> subst h <;> simp [WlSurface.current]
  · subst h
    subst h'
    cases hv : strideInvalid a
    · rw [commitState_attach_valid _ _ a rfl hv, applyPreBuffer_spec]
      rcases hsc with h | h <;> subst h <;> simp [WlSurface.current]
    · rw [commitState_attach_invalid _ _ a rfl hv, applyPreBuffer_spec]
      rcases hsc with h | h <;> subst h <;> simp [WlSurface.current]

/-- Witness for C7: a commit whose pending offset, input shape and scale
equal the current values leaves the current state unchanged. -/
theorem commit_idempotent_witness :
    (WlSurface.commit
        { pending := { offset := some ⟨3, 4⟩, input_shape := some (some []),
                       scale := some 2 },
          offset_ := ⟨3, 4⟩, buffer_size_ := some ⟨8, 8⟩,
          input_shape := some [], scale := 2 }).map
        (fun eff => eff.surface.current)
      = some ⟨some ⟨8, 8⟩, ⟨3, 4⟩, some [], 2⟩ := by
  exact commit_idempotent
    { pending := { offset := some ⟨3, 4⟩, input_shape := some (some []),
                   scale := some 2 },
      offset_ := ⟨3, 4⟩, buffer_size_ := some ⟨8, 8⟩,
      input_shape := some [], scale := 2 }
    rfl (Or.inr rfl) (Or.inr rfl) (Or.inr rfl) (Or.inl rfl)

/-- C8: at most one role may be attached: on a surface whose role is not
the null role, a second `set_role` fails with a role-already-set
violation and leaves the existing role (and the whole surface) in place;
on a surface with the null role it installs the new role; `clear_role`
reverts to the null role, and a surface with the null role commits by
forwarding the cleaned pending state directly into the current state. -/
theorem role_assignment_exclusive :
    (∀ (s : WlSurface) (r : Nat), s.role ≠ .nullRole →
        s.set_role r = (s, some .roleAlreadySet)) ∧
    (∀ (s : WlSurface) (r : Nat), s.role = .nullRole →
        s.set_role r = ({ s with role := .otherRole r }, none)) ∧
    (∀ s : WlSurface, s.clear_role.role = .nullRole) ∧
    (∀ s : WlSurface, s.clear_role.commit
        = some (NullWlSurfaceRole.commit { s.clear_role with pending := {} }
            s.clear_role.commitCleanup)) := by
  refine ⟨fun s r h => ?_, fun s r h => ?_, fun s => rfl, fun s => rfl⟩
  · simp [WlSurface.set_role, h]
  · simp [WlSurface.set_role, h]

/-- Witness for C8: a surface already holding role 1 rejects role 2 and
keeps its state; a fresh surface accepts role 1; clearing reverts to the
null role. -/
theorem role_assignment_exclusive_witness :
    (WlSurface.set_role { role := .otherRole 1 } 2
        = ({ role := .otherRole 1 }, some .roleAlreadySet)) ∧
    (WlSurface.set_role {} 1 = ({ role := .otherRole 1 }, none)) ∧
    (WlSurface.clear_role { role := .otherRole 1 }).role = .nullRole := by
  refine ⟨role_assignment_exclusive.1 { role := .otherRole 1 } 2 (by decide),
          ?_, role_assignment_exclusive.2.2.1 { role := .otherRole 1 }⟩
  exact role_assignment_exclusive.2.1 {} 1 rfl

/-- C9: the buffer swap queue is a bounded FIFO with capacity fixed at
construction (at least one buffer; zero buffers invalid);
`compositor_acquire` on an empty queue suspends the caller on the
condition variable (no busy-waiting, no buffer returned) and on a
non-empty queue removes and returns exclusive ownership of the front
buffer; once capacity-many buffers are in flight a further submission
blocks its producer; and `compositor_release` then wakes exactly one
blocked waiter, whose pending buffer takes the freed slot. -/
theorem swap_queue_bounded_blocking_fifo :
    (SwapQueue.mkSwapQueue [] = none) ∧
    (∀ (buffers : List Nat) (q : SwapQueue),
        SwapQueue.mkSwapQueue buffers = some q →
        1 ≤ q.capacity ∧ q.capacity = buffers.length ∧ q.queue = buffers) ∧
    (∀ (s : SwapQueue) (t : Nat), s.queue = [] →
        s.compositor_acquire t
          = ({ s with acquire_waiters := s.acquire_waiters ++ [t] }, none)) ∧
    (∀ (s : SwapQueue) (t front : Nat) (rest : List Nat),
        s.queue = front :: rest →
        s.compositor_acquire t
          = ({ s with queue := rest, acquired := s.acquired ++ [front] },
             some front)) ∧
    (∀ (s : SwapQueue) (t b : Nat), s.capacity ≤ s.inFlight →
        s.submit t b
          = ({ s with producer_waiters := s.producer_waiters ++ [(t, b)] },
             true)) ∧
    (∀ (s : SwapQueue) (b t pb : Nat) (rest : List (Nat × Nat)),
        s.producer_waiters = (t, pb) :: rest →
        s.compositor_release b
          = { s with acquired := s.acquired.erase b, queue := s.queue ++ [pb],
                     producer_waiters := rest } ∧
        (s.compositor_release b).waiters + 1 = s.waiters) := by
  refine ⟨rfl, fun buffers q hq => ?_, fun s t h => ?_, fun s t front rest h => ?_,
          fun s t b h => ?_, fun s b t pb rest h => ?_⟩
  · unfold SwapQueue.mkSwapQueue at hq
    split at hq
    · exact absurd hq (by simp)
    · rename_i hne
      cases hq
      refine ⟨?_, rfl, rfl⟩
      have hnil : buffers ≠ [] := by simpa [List.isEmpty_iff] using hne
      exact List.length_pos.mpr hnil
  · obtain ⟨cap, qu, acq, aw, pw⟩ := s
    dsimp only at h
    subst h
    rfl
  · obtain ⟨cap, qu, acq, aw, pw⟩ := s
    dsimp only at h
    subst h
    rfl
  · unfold SwapQueue.submit
    rw [if_pos h]
  · obtain ⟨cap, qu, acq, aw, pw⟩ := s
    dsimp only at h
    subst h
    refine ⟨rfl, ?_⟩
    simp only [SwapQueue.compositor_release, SwapQueue.waiters, List.length_cons]
    omega

/-- Witness for C9: with capacity 2 fixed by construction from two
buffers, an acquire hands out the front buffer, a third submission blocks
its producer, and a release wakes exactly that one waiter, enqueueing its
buffer; an acquire on an empty queue suspends the caller. -/
theorem swap_queue_bounded_blocking_fifo_witness :
    (SwapQueue.mkSwapQueue [] = none) ∧
    (1 ≤ (⟨2, [10, 20], [], [], []⟩ : SwapQueue).capacity) ∧
    (SwapQueue.compositor_acquire ⟨2, [10, 20], [], [], []⟩ 9
      = (⟨2, [20], [10], [], []⟩, some 10)) ∧
    (SwapQueue.submit ⟨2, [20], [10], [], []⟩ 1 30
      = (⟨2, [20], [10], [], [(1, 30)]⟩, true)) ∧
    (SwapQueue.compositor_release ⟨2, [20], [10], [], [(1, 30)]⟩ 10
      = ⟨2, [20, 30], [], [], []⟩) ∧
    ((SwapQueue.compositor_release ⟨2, [20], [10], [], [(1, 30)]⟩ 10).waiters + 1
      = (⟨2, [20], [10], [], [(1, 30)]⟩ : SwapQueue).waiters) ∧
    (SwapQueue.compositor_acquire ⟨2, [], [], [], []⟩ 5
      = (⟨2, [], [], [5], []⟩, none)) := by
  have hmk := swap_queue_bounded_blocking_fifo.2.1 [10, 20]
    ⟨2, [10, 20], [], [], []⟩ rfl
  have hacq := swap_queue_bounded_blocking_fifo.2.2.1 ⟨2, [], [], [], []⟩ 5 rfl
  have hpop := swap_queue_bounded_blocking_fifo.2.2.2.1
    ⟨2, [10, 20], [], [], []⟩ 9 10 [20] rfl
  have hsub := swap_queue_bounded_blocking_fifo.2.2.2.2.1
    ⟨2, [20], [10], [], []⟩ 1 30 (by decide)
  have hrel := swap_queue_bounded_blocking_fifo.2.2.2.2.2
    ⟨2, [20], [10], [], [(1, 30)]⟩ 10 1 30 [] rfl
  exact ⟨swap_queue_bounded_blocking_fifo.1, hmk.1, hpop, hsub, hrel.1, hrel.2, hacq⟩

end Mir
